import Mathlib

open Real

noncomputable section

/-! Shallow embedding of the SE2 planar rigid-motion primitives and the
fixed-step vehicle simulation loop of `src/ProfGoppertscript.py`,
with real numbers standing for the Python floats. -/

/-- A vector in R^3, indexed like the numpy arrays `v[0]`, `v[1]`, `v[2]`. -/
@[ext]
structure Vec3 where
  x0 : ℝ
  x1 : ℝ
  x2 : ℝ

/-- A 3x3 real matrix with explicit entries `a[i][j]`, the representation used
for SE2 group elements and Lie-algebra elements in the source. -/
@[ext]
structure Mat3 where
  a00 : ℝ
  a01 : ℝ
  a02 : ℝ
  a10 : ℝ
  a11 : ℝ
  a12 : ℝ
  a20 : ℝ
  a21 : ℝ
  a22 : ℝ

/-- Matrix product of two 3x3 matrices (numpy `P.dot(Q)`). -/
def mul3 (P Q : Mat3) : Mat3 :=
  ⟨P.a00 * Q.a00 + P.a01 * Q.a10 + P.a02 * Q.a20,
   P.a00 * Q.a01 + P.a01 * Q.a11 + P.a02 * Q.a21,
   P.a00 * Q.a02 + P.a01 * Q.a12 + P.a02 * Q.a22,
   P.a10 * Q.a00 + P.a11 * Q.a10 + P.a12 * Q.a20,
   P.a10 * Q.a01 + P.a11 * Q.a11 + P.a12 * Q.a21,
   P.a10 * Q.a02 + P.a11 * Q.a12 + P.a12 * Q.a22,
   P.a20 * Q.a00 + P.a21 * Q.a10 + P.a22 * Q.a20,
   P.a20 * Q.a01 + P.a21 * Q.a11 + P.a22 * Q.a21,
   P.a20 * Q.a02 + P.a21 * Q.a12 + P.a22 * Q.a22⟩

/-- Determinant of a 3x3 matrix, by cofactor expansion along the first row. -/
def det3 (M : Mat3) : ℝ :=
  M.a00 * (M.a11 * M.a22 - M.a12 * M.a21)
    - M.a01 * (M.a10 * M.a22 - M.a12 * M.a20)
    + M.a02 * (M.a10 * M.a21 - M.a11 * M.a20)

/-- Inverse of a 3x3 matrix by the adjugate formula; models `np.linalg.inv`
on the invertible matrices the simulation feeds it. -/
def inv3 (M : Mat3) : Mat3 :=
  ⟨(M.a11 * M.a22 - M.a12 * M.a21) / det3 M,
   (M.a02 * M.a21 - M.a01 * M.a22) / det3 M,
   (M.a01 * M.a12 - M.a02 * M.a11) / det3 M,
   (M.a12 * M.a20 - M.a10 * M.a22) / det3 M,
   (M.a00 * M.a22 - M.a02 * M.a20) / det3 M,
   (M.a02 * M.a10 - M.a00 * M.a12) / det3 M,
   (M.a10 * M.a21 - M.a11 * M.a20) / det3 M,
   (M.a01 * M.a20 - M.a00 * M.a21) / det3 M,
   (M.a00 * M.a11 - M.a01 * M.a10) / det3 M⟩

/-- Elementwise product of a 3-vector with a scalar (numpy `v * c`). -/
def scaleV (v : Vec3) (c : ℝ) : Vec3 := ⟨v.x0 * c, v.x1 * c, v.x2 * c⟩

/-- Numpy broadcast addition of a scalar to a 3-vector (`v += c`). -/
def addScalarV (v : Vec3) (c : ℝ) : Vec3 := ⟨v.x0 + c, v.x1 + c, v.x2 + c⟩

/-- Two-argument arctangent with the semantics of `np.arctan2 y x` on the
reals: the angle of the point `(x, y)` in `(-pi, pi]`. -/
def atan2 (y x : ℝ) : ℝ :=
  if 0 < x then arctan (y / x)
  else if x < 0 ∧ 0 ≤ y then arctan (y / x) + π
  else if x < 0 ∧ y < 0 then arctan (y / x) - π
  else if x = 0 ∧ 0 < y then π / 2
  else if x = 0 ∧ y < 0 then -(π / 2)
  else 0

namespace SE2

/-- Builds the group element from the chart parameterization `v = [theta, x, y]`
(`SE2.from_params`, ProfGoppertscript.py lines 18-28). -/
def from_params (v : Vec3) : Mat3 :=
  ⟨Real.cos v.x0, -Real.sin v.x0, v.x1,
   Real.sin v.x0, Real.cos v.x0, v.x2,
   0, 0, 1⟩

/-- Extracts the parameterization `[theta, x, y]` of a group element
(`SE2.to_params`, lines 30-38). -/
def to_params (G : Mat3) : Vec3 := ⟨atan2 G.a10 G.a00, G.a02, G.a12⟩

/-- Sends a twist vector to its Lie-algebra matrix (`SE2.wedge`, lines 40-56). -/
def wedge (v : Vec3) : Mat3 :=
  ⟨0, -v.x0, v.x1,
   v.x0, 0, v.x2,
   0, 0, 0⟩

/-- Sends a Lie-algebra matrix back to a twist vector (`SE2.vee`, lines 58-69). -/
def vee (Omega : Mat3) : Vec3 := ⟨Omega.a10, Omega.a02, Omega.a12⟩

/-- The coefficient `A = sin(theta)/theta` with the small-angle fallback `A = 1`
for `|theta| < 1e-5`; this if-block is duplicated verbatim in the source's
`exp` (lines 78-83) and `log` (lines 98-103). -/
def coeffA (θ : ℝ) : ℝ := if |θ| < 1e-5 then 1 else Real.sin θ / θ

/-- The coefficient `B = (1-cos(theta))/theta` with the small-angle fallback
`B = 0` for `|theta| < 1e-5`, shared by the source's `exp` and `log`. -/
def coeffB (θ : ℝ) : ℝ := if |θ| < 1e-5 then 0 else (1 - Real.cos θ) / θ

/-- Exponential map from the Lie algebra to the group (`SE2.exp`, lines 71-90):
reads `theta = Omega[1,0]`, `u = (Omega[0,2], Omega[1,2])`, and returns the
pose with rotation `theta` and translation `V.dot(u)`, `V = [[A,-B],[B,A]]`. -/
def exp (Omega : Mat3) : Mat3 :=
  ⟨Real.cos Omega.a10, -Real.sin Omega.a10,
     coeffA Omega.a10 * Omega.a02 + -coeffB Omega.a10 * Omega.a12,
   Real.sin Omega.a10, Real.cos Omega.a10,
     coeffB Omega.a10 * Omega.a02 + coeffA Omega.a10 * Omega.a12,
   0, 0, 1⟩

/-- The denominator `A**2 + B**2` by which `SE2.log` divides (line 104). -/
def logDenom (G : Mat3) : ℝ :=
  coeffA (atan2 G.a10 G.a00) ^ 2 + coeffB (atan2 G.a10 G.a00) ^ 2

/-- Logarithm map from the group to the Lie algebra (`SE2.log`, lines 92-111):
recovers `theta` by `arctan2(G[1,0], G[0,0])` and the translation part by
`V_I.dot(p)` with `V_I = [[A,B],[-B,A]] / (A**2+B**2)`, `p = (G[0,2], G[1,2])`. -/
def log (G : Mat3) : Mat3 :=
  ⟨0, -atan2 G.a10 G.a00,
     (coeffA (atan2 G.a10 G.a00) * G.a02 + coeffB (atan2 G.a10 G.a00) * G.a12)
       / logDenom G,
   atan2 G.a10 G.a00, 0,
     (-coeffB (atan2 G.a10 G.a00) * G.a02 + coeffA (atan2 G.a10 G.a00) * G.a12)
       / logDenom G,
   0, 0, 0⟩

end SE2

namespace Sim

/-- The scalar configuration set in `Sim.__init__` (lines 155-172); the noise
and disturbance enable flags are the on/off knobs the comments describe. -/
structure Config where
  enable_noise : ℝ
  enable_disturbance : ℝ
  dt : ℝ
  tf : ℝ
  track : List ℝ
  track_length : ℝ
  width : ℝ
  wheelbase : ℝ
  disturbance_mag_x : ℝ
  disturbance_mag_theta : ℝ
  noise_mag : ℝ
  off_track_velocity_penalty : ℝ
  desired_speed : ℝ
  crash_distance : ℝ

/-- The parameter values assigned in `Sim.__init__` (lines 156-172). -/
def defaultConfig : Config :=
  ⟨1, 1, 0.001, 5, [1, -1, 1, 1, 1, -1, 1, 1], 5, 0.05, 0.01, 0, 1, 0.5, 0.5, 2, 0.2⟩

/-- One record of the per-step data appended to `Sim.data` (lines 277-296). -/
structure Sample where
  t : ℝ
  theta : ℝ
  x : ℝ
  y : ℝ
  theta_r : ℝ
  x_r : ℝ
  y_r : ℝ
  throttle : ℝ
  velocity : ℝ
  steering : ℝ
  wheel : ℝ
  e_theta : ℝ
  e_x : ℝ
  e_y : ℝ
  track_left_x : ℝ
  track_left_y : ℝ
  track_right_x : ℝ
  track_right_y : ℝ
  off_track : Bool

/-- The mutable loop state of `Sim.run`: true pose `X`, reference pose `Xr`,
applied velocity, traveled distance, the sticky crash flag, the external
controller's private state, and the recorded sample series. -/
structure SimState (σ : Type) where
  X : Mat3
  Xr : Mat3
  velocity : ℝ
  distance : ℝ
  crashed : Bool
  cs : σ
  samples : List Sample

variable {σ : Type}

/-- Python float modulus `x % y` for positive modulus (line 229). -/
def fmod (x y : ℝ) : ℝ := x - y * ⌊x / y⌋

/-- The throttle saturation `if throttle < 0 ... elif throttle > 1 ...`
(lines 248-251). -/
def clampThrottle (x : ℝ) : ℝ := if x < 0 then 0 else if x > 1 then 1 else x

/-- The steering saturation `if steering > 1 ... elif steering < -1 ...`
(lines 252-255). -/
def clampSteering (x : ℝ) : ℝ := if x > 1 then 1 else if x < -1 then -1 else x

/-- The leg-selection loop of lines 228-232: walk the track directives and
return the rate twist of the first leg whose cumulative span exceeds `d_lap`. -/
def selectLeg (track : List ℝ) (i : ℕ) (d_lap leg_d leg_dt speed : ℝ) : Vec3 :=
  match track with
  | [] => ⟨0, 0, 0⟩
  | turn :: rest =>
      if d_lap < ((i : ℝ) + 1) * leg_d then ⟨turn * π / 2 / leg_dt, 0, speed⟩
      else selectLeg rest (i + 1) d_lap leg_d leg_dt speed

/-- The raw reference rate twist `u_r` before the along-track gate
(lines 223-232), with `leg_d = track_length / len(track)` and
`leg_dt = leg_d / desired_speed`. -/
def refRate (cfg : Config) (distance : ℝ) : Vec3 :=
  selectLeg cfg.track 0 (fmod distance cfg.track_length)
    (cfg.track_length / (cfg.track.length : ℝ))
    (cfg.track_length / (cfg.track.length : ℝ) / cfg.desired_speed)
    cfg.desired_speed

/-- The reference rate twist after the along-track gate of lines 233-236:
forced to the zero vector unless `error[2] > 0`. -/
def gatedRate (cfg : Config) (distance e2 : ℝ) : Vec3 :=
  if e2 > 0 then refRate cfg distance else ⟨0, 0, 0⟩

/-- The traveled-distance update of lines 233-236: advance by
`desired_speed * dt` exactly when `error[2] > 0`. -/
def newDistance (cfg : Config) (distance e2 : ℝ) : ℝ :=
  if e2 > 0 then distance + cfg.desired_speed * cfg.dt else distance

/-- The scalar measurement-noise term broadcast onto the error vector
(line 239), scaled by the previous step's velocity. -/
def noiseTerm (cfg : Config) (t phiN v : ℝ) : ℝ :=
  cfg.enable_noise * cfg.noise_mag * Real.sin (30 * 2 * π * t + phiN) * v

/-- The body-frame disturbance magnitude of line 265: a run-constant phase
`phiD`, plus a fresh standard-normal draw `r` made inside the sinusoid at
every step, scaled by the step's applied velocity. -/
def disturbance (cfg : Config) (t phiD r v : ℝ) : ℝ :=
  cfg.enable_disturbance * (0.2 + Real.sin (3 * t * 2 * π + phiD + r)) * v

/-- The body twist integrated at lines 270-273:
`(velocity * tan(wheel)/wheelbase + disturbance_theta, disturbance_x, velocity)`. -/
def bodyTwist (cfg : Config) (velocity wheel dx dtheta : ℝ) : Vec3 :=
  ⟨velocity * Real.tan wheel / cfg.wheelbase + dtheta, dx, velocity⟩

/-- The state-dependent velocity override of lines 256-262: zero when crashed,
penalized when off track, otherwise the clamped throttle. -/
def appliedVelocity (cfg : Config) (crashed off : Bool) (thr : ℝ) : ℝ :=
  if crashed then 0
  else if off then (1 - cfg.off_track_velocity_penalty) * thr
  else thr

/-- The pre-noise tracking error of line 211:
`error = vee(log(inv(Xr).dot(X)))` with the re-canonicalized `Xr` of line 205. -/
def stepError (cfg : Config) (s : SimState σ) : Vec3 :=
  SE2.vee (SE2.log (mul3 (inv3 (SE2.from_params (SE2.to_params s.Xr))) s.X))

/-- The off-track test of lines 214-217: `|error[1]| > width`. -/
def stepOffTrack (cfg : Config) (s : SimState σ) : Bool :=
  decide (|(stepError cfg s).x1| > cfg.width)

/-- The sticky crash flag after the check of lines 220-221. -/
def stepCrashed (cfg : Config) (s : SimState σ) : Bool :=
  s.crashed || decide (|(stepError cfg s).x1| > cfg.crash_distance)

/-- The error vector after the scalar noise broadcast of line 239. -/
def stepErrorN (cfg : Config) (phiN t : ℝ) (s : SimState σ) : Vec3 :=
  addScalarV (stepError cfg s) (noiseTerm cfg t phiN s.velocity)

/-- The external controller invocation of line 245, returning its updated
private state together with `(throttle, steering)`. -/
def stepCtrlOut (cfg : Config) (ctrl : σ → Vec3 → Vec3 → σ × ℝ × ℝ)
    (phiN t : ℝ) (s : SimState σ) : σ × ℝ × ℝ :=
  ctrl s.cs (stepErrorN cfg phiN t s) (gatedRate cfg s.distance (stepError cfg s).x2)

/-- The clamped throttle of lines 248-251. -/
def stepThrottle (cfg : Config) (ctrl : σ → Vec3 → Vec3 → σ × ℝ × ℝ)
    (phiN t : ℝ) (s : SimState σ) : ℝ :=
  clampThrottle (stepCtrlOut cfg ctrl phiN t s).2.1

/-- The clamped steering (= wheel angle) of lines 252-256. -/
def stepSteering (cfg : Config) (ctrl : σ → Vec3 → Vec3 → σ × ℝ × ℝ)
    (phiN t : ℝ) (s : SimState σ) : ℝ :=
  clampSteering (stepCtrlOut cfg ctrl phiN t s).2.2

/-- The applied velocity of lines 257-262. -/
def stepVelocity (cfg : Config) (ctrl : σ → Vec3 → Vec3 → σ × ℝ × ℝ)
    (phiN t : ℝ) (s : SimState σ) : ℝ :=
  appliedVelocity cfg (stepCrashed cfg s) (stepOffTrack cfg s)
    (stepThrottle cfg ctrl phiN t s)

/-- The disturbance magnitude `dist` sampled at line 265 for this step. -/
def stepDisturb (cfg : Config) (ctrl : σ → Vec3 → Vec3 → σ × ℝ × ℝ)
    (phiD phiN r t : ℝ) (s : SimState σ) : ℝ :=
  disturbance cfg t phiD r (stepVelocity cfg ctrl phiN t s)

/-- The body twist `u` built at lines 266-273 for this step. -/
def stepTwist (cfg : Config) (ctrl : σ → Vec3 → Vec3 → σ × ℝ × ℝ)
    (phiD phiN r t : ℝ) (s : SimState σ) : Vec3 :=
  bodyTwist cfg (stepVelocity cfg ctrl phiN t s) (stepSteering cfg ctrl phiN t s)
    (stepDisturb cfg ctrl phiD phiN r t s * cfg.disturbance_mag_x)
    (stepDisturb cfg ctrl phiD phiN r t s * cfg.disturbance_mag_theta)

/-- The sample appended to `Sim.data` at lines 277-296: the pre-step poses,
the clamped commands, the applied velocity, the noisy error, and the track
boundary points built from the reference pose. -/
def stepSample (cfg : Config) (ctrl : σ → Vec3 → Vec3 → σ × ℝ × ℝ)
    (phiD phiN r t : ℝ) (s : SimState σ) : Sample :=
  ⟨t,
   (SE2.to_params s.X).x0, (SE2.to_params s.X).x1, (SE2.to_params s.X).x2,
   (SE2.to_params s.Xr).x0, (SE2.to_params s.Xr).x1, (SE2.to_params s.Xr).x2,
   stepThrottle cfg ctrl phiN t s,
   stepVelocity cfg ctrl phiN t s,
   stepSteering cfg ctrl phiN t s,
   stepSteering cfg ctrl phiN t s,
   (stepErrorN cfg phiN t s).x0, (stepErrorN cfg phiN t s).x1,
   (stepErrorN cfg phiN t s).x2,
   (SE2.to_params (mul3 (SE2.from_params (SE2.to_params s.Xr))
     (SE2.from_params ⟨0, cfg.width, 0⟩))).x1,
   (SE2.to_params (mul3 (SE2.from_params (SE2.to_params s.Xr))
     (SE2.from_params ⟨0, cfg.width, 0⟩))).x2,
   (SE2.to_params (mul3 (SE2.from_params (SE2.to_params s.Xr))
     (SE2.from_params ⟨0, -cfg.width, 0⟩))).x1,
   (SE2.to_params (mul3 (SE2.from_params (SE2.to_params s.Xr))
     (SE2.from_params ⟨0, -cfg.width, 0⟩))).x2,
   stepOffTrack cfg s⟩

/-- One iteration of the `for t in np.arange(...)` loop body of `Sim.run`
(lines 200-296), at loop time `t` and with `r` the step's standard-normal
draw from line 265. -/
def simStep (cfg : Config) (ctrl : σ → Vec3 → Vec3 → σ × ℝ × ℝ)
    (phiD phiN r t : ℝ) (s : SimState σ) : SimState σ :=
  ⟨mul3 s.X (SE2.exp (SE2.wedge (scaleV (stepTwist cfg ctrl phiD phiN r t s) cfg.dt))),
   mul3 (SE2.from_params (SE2.to_params s.Xr))
     (SE2.exp (SE2.wedge (scaleV (gatedRate cfg s.distance (stepError cfg s).x2) cfg.dt))),
   stepVelocity cfg ctrl phiN t s,
   newDistance cfg s.distance (stepError cfg s).x2,
   stepCrashed cfg s,
   (stepCtrlOut cfg ctrl phiN t s).1,
   s.samples ++ [stepSample cfg ctrl phiD phiN r t s]⟩

/-- The first `n` iterations of the loop: step `k` runs at time `t = k * dt`
and consumes the `k`-th standard-normal draw of the stream `rs`. -/
def runSteps (cfg : Config) (ctrl : σ → Vec3 → Vec3 → σ × ℝ × ℝ)
    (phiD phiN : ℝ) (rs : ℕ → ℝ) : ℕ → SimState σ → SimState σ
  | 0, s => s
  | n + 1, s =>
      simStep cfg ctrl phiD phiN (rs n) ((n : ℝ) * cfg.dt)
        (runSteps cfg ctrl phiD phiN rs n s)

/-- The loop entry state of lines 188-198: the car at the starting line with
lateral offset `width/2`, the reference at the origin, zero velocity and
distance, no crash, and an empty data series. -/
def initState (cfg : Config) (cs0 : σ) : SimState σ :=
  ⟨SE2.from_params ⟨0, cfg.width / 2, 0⟩, SE2.from_params ⟨0, 0, 0⟩,
   0, 0, false, cs0, []⟩

/-- The number of loop iterations: `np.arange(0, tf, dt)` has
`ceil(tf / dt)` entries. -/
def numSteps (cfg : Config) : ℕ := ⌈cfg.tf / cfg.dt⌉₊

/-- The configuration with the noise and disturbance knobs of lines 156-157
turned off (`enable_noise = 0`, `enable_disturbance = 0`) and every other
parameter as assigned in `Sim.__init__`. -/
def quietConfig : Config :=
  ⟨0, 0, 0.001, 5, [1, -1, 1, 1, 1, -1, 1, 1], 5, 0.05, 0.01, 0, 1, 0.5, 0.5, 2, 0.2⟩

/-- `Sim.run` (lines 180-306): draw the two phase offsets `0.1*pi*randn()`,
iterate the loop for the full step count, and return the traveled distance. -/
def simRun (cfg : Config) (ctrl : σ → Vec3 → Vec3 → σ × ℝ × ℝ)
    (r1 r2 : ℝ) (rs : ℕ → ℝ) (cs0 : σ) : ℝ :=
  (runSteps cfg ctrl (0.1 * π * r1) (0.1 * π * r2) rs (numSteps cfg)
    (initState cfg cs0)).distance

end Sim

namespace FloatClamp

/-- IEEE-754 ordered less-than on Python floats, with `none` standing for NaN:
every ordered comparison against NaN is false. -/
def fLt : Option ℝ → Option ℝ → Bool
  | some a, some b => decide (a < b)
  | _, _ => false

/-- IEEE-754 ordered greater-than on Python floats; false whenever either
operand is NaN. -/
def fGt : Option ℝ → Option ℝ → Bool
  | some a, some b => decide (b < a)
  | _, _ => false

/-- The throttle clamp of lines 248-251 under IEEE comparison semantics:
`if throttle < 0: throttle = 0 elif throttle > 1: throttle = 1`. -/
def clampThrottleF (x : Option ℝ) : Option ℝ :=
  if fLt x (some 0) then some 0 else if fGt x (some 1) then some 1 else x

/-- The steering clamp of lines 252-255 under IEEE comparison semantics. -/
def clampSteeringF (x : Option ℝ) : Option ℝ :=
  if fGt x (some 1) then some 1 else if fLt x (some (-1)) then some (-1) else x

end FloatClamp

/-! ### Properties of the two-argument arctangent -/

/-- The value of `arctan2` always lies in the principal range `(-pi, pi]`. -/
theorem atan2_mem_Ioc (y x : ℝ) : atan2 y x ∈ Set.Ioc (-π) π := by
  have hpi := Real.pi_pos
  have ha1 := Real.arctan_lt_pi_div_two (y / x)
  have ha2 := Real.neg_pi_div_two_lt_arctan (y / x)
  unfold atan2
  split_ifs with h1 h2 h3 h4 h5
  · exact ⟨by linarith, by linarith⟩
  · have hyx : y / x ≤ 0 := div_nonpos_iff.mpr (Or.inl ⟨h2.2, h2.1.le⟩)
    have hle : arctan (y / x) ≤ 0 := by
      have h := Real.arctan_strictMono.monotone hyx
      rwa [Real.arctan_zero] at h
    exact ⟨by linarith, by linarith⟩
  · have hyx : 0 < y / x := div_pos_iff.mpr (Or.inr ⟨h3.2, h3.1⟩)
    have hgt : 0 < arctan (y / x) := by
      have h := Real.arctan_strictMono hyx
      rwa [Real.arctan_zero] at h
    exact ⟨by linarith, by linarith⟩
  · exact ⟨by linarith, by linarith⟩
  · exact ⟨by linarith, by linarith⟩
  · exact ⟨by linarith, by linarith⟩

/-- On the principal range, `arctan2` inverts the pair `(sin, cos)`. -/
theorem atan2_sin_cos {θ : ℝ} (h1 : -π < θ) (h2 : θ ≤ π) :
    atan2 (Real.sin θ) (Real.cos θ) = θ := by
  have hpi := Real.pi_pos
  rcases lt_trichotomy (Real.cos θ) 0 with hc | hc | hc
  · have hhalf : π / 2 < |θ| := by
      by_contra hle
      push_neg at hle
      obtain ⟨hl, hr⟩ := abs_le.mp hle
      exact absurd (Real.cos_nonneg_of_neg_pi_div_two_le_of_le (by linarith) hr)
        (not_le.mpr hc)
    rcases lt_abs.mp hhalf with hgt | hlt
    · have hs : 0 ≤ Real.sin θ := Real.sin_nonneg_of_nonneg_of_le_pi (by linarith) h2
      unfold atan2
      rw [if_neg (not_lt.mpr hc.le), if_pos ⟨hc, hs⟩]
      have htan : Real.sin θ / Real.cos θ = Real.tan (θ - π) := by
        rw [Real.tan_periodic.sub_eq, Real.tan_eq_sin_div_cos]
      rw [htan, Real.arctan_tan (by linarith) (by linarith)]
      ring
    · have hθ0 : θ < 0 := by linarith
      have hs : Real.sin θ < 0 := Real.sin_neg_of_neg_of_neg_pi_lt hθ0 h1
      unfold atan2
      rw [if_neg (not_lt.mpr hc.le), if_neg (by rintro ⟨-, hy⟩; linarith),
        if_pos ⟨hc, hs⟩]
      have htan : Real.sin θ / Real.cos θ = Real.tan (θ + π) := by
        rw [Real.tan_periodic θ, Real.tan_eq_sin_div_cos]
      rw [htan, Real.arctan_tan (by linarith) (by linarith)]
      ring
  · obtain ⟨k, hk⟩ := Real.cos_eq_zero_iff.mp hc
    have e1 : θ = (2 * (k : ℝ) + 1) * (π / 2) := by rw [hk]; ring
    have hka : -1 ≤ k := by
      by_contra hlt
      push_neg at hlt
      have hk2 : k ≤ -2 := by omega
      have hk2r : (k : ℝ) ≤ -2 := by exact_mod_cast hk2
      nlinarith [e1 ▸ h1]
    have hkb : k ≤ 0 := by
      by_contra hlt
      push_neg at hlt
      have hk1 : (1 : ℝ) ≤ (k : ℝ) := by exact_mod_cast hlt
      nlinarith [e1 ▸ h2]
    interval_cases k
    · have hθ : θ = -(π / 2) := by rw [e1]; push_cast; ring
      rw [hθ]
      simp [atan2, Real.sin_neg, Real.cos_neg, Real.sin_pi_div_two,
        Real.cos_pi_div_two, hpi.le, not_lt.mpr]
    · have hθ : θ = π / 2 := by rw [e1]; push_cast; ring
      rw [hθ]
      simp [atan2, Real.sin_pi_div_two, Real.cos_pi_div_two, hpi]
  · have hb1 : -(π / 2) < θ := by
      by_contra hle
      push_neg at hle
      have hcn : Real.cos (-θ) ≤ 0 :=
        Real.cos_nonpos_of_pi_div_two_le_of_le (by linarith) (by linarith)
      rw [Real.cos_neg] at hcn
      linarith
    have hb2 : θ < π / 2 := by
      by_contra hle
      push_neg at hle
      have hcn : Real.cos θ ≤ 0 :=
        Real.cos_nonpos_of_pi_div_two_le_of_le hle (by linarith)
      linarith
    unfold atan2
    rw [if_pos hc, ← Real.tan_eq_sin_div_cos, Real.arctan_tan hb1 hb2]

/-- Away from zero the cosine stays strictly below one on the principal range. -/
theorem one_sub_cos_pos {θ : ℝ} (hne : θ ≠ 0) (h1 : -π < θ) (h2 : θ ≤ π) :
    0 < 1 - Real.cos θ := by
  have hpi := Real.pi_pos
  have hcos : Real.cos θ ≠ 1 := by
    intro hcc
    exact hne ((Real.cos_eq_one_iff_of_lt_of_lt (by linarith) (by linarith)).mp hcc)
  have hle : Real.cos θ ≤ 1 := Real.cos_le_one θ
  rcases lt_or_eq_of_le hle with h | h
  · linarith
  · exact absurd h hcos

/-- The guarded denominator `A^2 + B^2` shared by `exp` and `log` is positive
for every angle in the principal range. -/
theorem SE2.coeff_denom_pos {θ : ℝ} (h1 : -π < θ) (h2 : θ ≤ π) :
    0 < SE2.coeffA θ ^ 2 + SE2.coeffB θ ^ 2 := by
  unfold SE2.coeffA SE2.coeffB
  by_cases h : |θ| < 1e-5
  · rw [if_pos h, if_pos h]
    norm_num
  · rw [if_neg h, if_neg h]
    have hθ : θ ≠ 0 := by
      intro h0
      apply h
      rw [h0, abs_zero]
      norm_num
    have hB : (1 - Real.cos θ) / θ ≠ 0 :=
      div_ne_zero (ne_of_gt (one_sub_cos_pos hθ h1 h2)) hθ
    exact add_pos_of_nonneg_of_pos (sq_nonneg _) (pow_two_pos_of_ne_zero hB)

/-- Exact round trip `vee(log(exp(wedge(theta, dx, dy)))) = (theta, dx, dy)`
for any angle in the principal range. -/
theorem SE2.roundtrip {θ dx dy : ℝ} (h1 : -π < θ) (h2 : θ ≤ π) :
    SE2.vee (SE2.log (SE2.exp (SE2.wedge ⟨θ, dx, dy⟩))) = ⟨θ, dx, dy⟩ := by
  have hat : atan2 (Real.sin θ) (Real.cos θ) = θ := atan2_sin_cos h1 h2
  have hD : 0 < SE2.coeffA θ ^ 2 + SE2.coeffB θ ^ 2 := SE2.coeff_denom_pos h1 h2
  simp only [SE2.wedge, SE2.exp, SE2.vee, SE2.log, SE2.logDenom, hat]
  have e1 : SE2.coeffA θ * (SE2.coeffA θ * dx + -SE2.coeffB θ * dy)
      + SE2.coeffB θ * (SE2.coeffB θ * dx + SE2.coeffA θ * dy)
      = (SE2.coeffA θ ^ 2 + SE2.coeffB θ ^ 2) * dx := by ring
  have e2 : -SE2.coeffB θ * (SE2.coeffA θ * dx + -SE2.coeffB θ * dy)
      + SE2.coeffA θ * (SE2.coeffB θ * dx + SE2.coeffA θ * dy)
      = (SE2.coeffA θ ^ 2 + SE2.coeffB θ ^ 2) * dy := by ring
  rw [e1, e2, mul_div_cancel_left₀ _ (ne_of_gt hD), mul_div_cancel_left₀ _ (ne_of_gt hD)]

/-- Claim C1: for every twist vector `v = (theta, dx, dy)` with `|theta|`
strictly between 0 and pi, the closed-form maps are mutual inverses: the
round trip `vee(log(exp(wedge(v))))` returns `v` exactly over the reals. -/
theorem claim_C1 (v : Vec3) (h0 : 0 < |v.x0|) (hpi : |v.x0| < π) :
    SE2.vee (SE2.log (SE2.exp (SE2.wedge v))) = v := by
  obtain ⟨hl, hr⟩ := abs_lt.mp hpi
  exact SE2.roundtrip hl hr.le

/-- Claim C1 witness: the round trip at the concrete twist `(1, 2, 3)`. -/
theorem claim_C1_witness :
    SE2.vee (SE2.log (SE2.exp (SE2.wedge ⟨1, 2, 3⟩))) = (⟨1, 2, 3⟩ : Vec3) :=
  claim_C1 ⟨1, 2, 3⟩ (by norm_num)
    (by show |(1 : ℝ)| < π; rw [abs_one]; linarith [Real.pi_gt_three])

/-- Claim C9: `vee` is the exact structural inverse of `wedge`; `to_params`
recovers the `x` and `y` components of `from_params` exactly, and the angle
component whenever it lies in the principal range `(-pi, pi]` of `arctan2`. -/
theorem claim_C9 (v : Vec3) :
    SE2.vee (SE2.wedge v) = v ∧
    (SE2.to_params (SE2.from_params v)).x1 = v.x1 ∧
    (SE2.to_params (SE2.from_params v)).x2 = v.x2 ∧
    (v.x0 ∈ Set.Ioc (-π) π → SE2.to_params (SE2.from_params v) = v) := by
  refine ⟨rfl, rfl, rfl, fun h => ?_⟩
  simp only [SE2.to_params, SE2.from_params]
  rw [atan2_sin_cos h.1 h.2]

/-- Claim C9 witness at the concrete vector `(1, 2, 3)`, whose angle 1 lies
in the principal range. -/
theorem claim_C9_witness :
    SE2.vee (SE2.wedge ⟨1, 2, 3⟩) = (⟨1, 2, 3⟩ : Vec3) ∧
    SE2.to_params (SE2.from_params ⟨1, 2, 3⟩) = (⟨1, 2, 3⟩ : Vec3) :=
  ⟨(claim_C9 ⟨1, 2, 3⟩).1,
   (claim_C9 ⟨1, 2, 3⟩).2.2.2 (by
     constructor
     · show -π < 1
       linarith [Real.pi_pos]
     · show (1 : ℝ) ≤ π
       linarith [Real.pi_gt_three])⟩

/-- Claim C8: the denominator `A^2 + B^2` by which `log` divides is never
zero: the angle `arctan2` extracts always lies in `(-pi, pi]`; under the
small-angle fallback the denominator is exactly 1, and otherwise it is
strictly positive, so the division in `log` is always well-defined. -/
theorem claim_C8 (G : Mat3) :
    SE2.logDenom G ≠ 0 ∧
    (|atan2 G.a10 G.a00| < 1e-5 → SE2.logDenom G = 1) ∧
    (¬ |atan2 G.a10 G.a00| < 1e-5 → 0 < SE2.logDenom G) := by
  have hmem := atan2_mem_Ioc G.a10 G.a00
  have hD : 0 < SE2.logDenom G := SE2.coeff_denom_pos hmem.1 hmem.2
  refine ⟨ne_of_gt hD, fun h => ?_, fun _ => hD⟩
  simp only [SE2.logDenom, SE2.coeffA, SE2.coeffB, if_pos h]
  norm_num

/-- Claim C8 witness: at the identity pose the extracted angle is 0 and the
fallback branch gives denominator exactly 1; at the half-turn pose the angle
is pi, the generic branch applies, and the denominator is positive. -/
theorem claim_C8_witness :
    SE2.logDenom (SE2.from_params ⟨0, 0, 0⟩) = 1 ∧
    0 < SE2.logDenom (SE2.from_params ⟨π, 0, 0⟩) := by
  constructor
  · apply (claim_C8 (SE2.from_params ⟨0, 0, 0⟩)).2.1
    have h0 : atan2 (SE2.from_params ⟨0, 0, 0⟩).a10 (SE2.from_params ⟨0, 0, 0⟩).a00 = 0 := by
      show atan2 (Real.sin 0) (Real.cos 0) = 0
      exact atan2_sin_cos (by linarith [Real.pi_pos]) Real.pi_pos.le
    rw [h0]
    norm_num
  · apply (claim_C8 (SE2.from_params ⟨π, 0, 0⟩)).2.2
    have h0 : atan2 (SE2.from_params ⟨π, 0, 0⟩).a10 (SE2.from_params ⟨π, 0, 0⟩).a00 = π := by
      show atan2 (Real.sin π) (Real.cos π) = π
      exact atan2_sin_cos (by linarith [Real.pi_pos]) le_rfl
    rw [h0, abs_of_pos Real.pi_pos]
    exact not_lt.mpr (by linarith [Real.pi_gt_three])

/-! ### Step-level lemmas about the simulation loop -/

/-- The exponential of the zero twist scaled by any factor is the identity. -/
theorem exp_wedge_scaleV_zero (c : ℝ) :
    SE2.exp (SE2.wedge (scaleV ⟨0, 0, 0⟩ c)) = (⟨1, 0, 0, 0, 1, 0, 0, 0, 1⟩ : Mat3) := by
  norm_num [scaleV, SE2.wedge, SE2.exp, SE2.coeffA, SE2.coeffB]

/-- Multiplying by the identity matrix on the right changes nothing. -/
theorem mul3_one_right (M : Mat3) : mul3 M ⟨1, 0, 0, 0, 1, 0, 0, 0, 1⟩ = M := by
  apply Mat3.ext <;> simp [mul3]

/-- One step keeps the crash flag set: the check of lines 220-221 can only
turn it on. -/
theorem Sim.stepCrashed_stays {σ : Type} (cfg : Sim.Config) (s : Sim.SimState σ)
    (h : s.crashed = true) : Sim.stepCrashed cfg s = true := by
  unfold Sim.stepCrashed
  rw [h, Bool.true_or]

/-- With the crash flag set, the velocity override of lines 259-260 forces
the applied velocity to zero. -/
theorem Sim.stepVelocity_crashed {σ : Type} (cfg : Sim.Config)
    (ctrl : σ → Vec3 → Vec3 → σ × ℝ × ℝ) (phiN t : ℝ) (s : Sim.SimState σ)
    (h : s.crashed = true) : Sim.stepVelocity cfg ctrl phiN t s = 0 := by
  unfold Sim.stepVelocity Sim.appliedVelocity
  rw [Sim.stepCrashed_stays cfg s h]
  simp

/-- With the crash flag set, the disturbance of line 265 vanishes, because it
is scaled by the zero applied velocity. -/
theorem Sim.stepDisturb_crashed {σ : Type} (cfg : Sim.Config)
    (ctrl : σ → Vec3 → Vec3 → σ × ℝ × ℝ) (phiD phiN r t : ℝ) (s : Sim.SimState σ)
    (h : s.crashed = true) : Sim.stepDisturb cfg ctrl phiD phiN r t s = 0 := by
  unfold Sim.stepDisturb Sim.disturbance
  rw [Sim.stepVelocity_crashed cfg ctrl phiN t s h, mul_zero]

/-- With the crash flag set, the integrated body twist of lines 270-273 is the
zero vector. -/
theorem Sim.stepTwist_crashed {σ : Type} (cfg : Sim.Config)
    (ctrl : σ → Vec3 → Vec3 → σ × ℝ × ℝ) (phiD phiN r t : ℝ) (s : Sim.SimState σ)
    (h : s.crashed = true) : Sim.stepTwist cfg ctrl phiD phiN r t s = ⟨0, 0, 0⟩ := by
  unfold Sim.stepTwist Sim.bodyTwist
  rw [Sim.stepVelocity_crashed cfg ctrl phiN t s h,
    Sim.stepDisturb_crashed cfg ctrl phiD phiN r t s h]
  norm_num

/-- With the crash flag set, one step leaves the true pose unchanged. -/
theorem Sim.simStep_crashed_X {σ : Type} (cfg : Sim.Config)
    (ctrl : σ → Vec3 → Vec3 → σ × ℝ × ℝ) (phiD phiN r t : ℝ) (s : Sim.SimState σ)
    (h : s.crashed = true) : (Sim.simStep cfg ctrl phiD phiN r t s).X = s.X := by
  show mul3 s.X (SE2.exp (SE2.wedge (scaleV (Sim.stepTwist cfg ctrl phiD phiN r t s) cfg.dt)))
    = s.X
  rw [Sim.stepTwist_crashed cfg ctrl phiD phiN r t s h, exp_wedge_scaleV_zero, mul3_one_right]

/-- The crash flag is monotone along the run: once set after `k` steps it is
still set after any further number of steps. -/
theorem Sim.runSteps_crashed_mono {σ : Type} (cfg : Sim.Config)
    (ctrl : σ → Vec3 → Vec3 → σ × ℝ × ℝ) (phiD phiN : ℝ) (rs : ℕ → ℝ)
    (s0 : Sim.SimState σ) (k : ℕ)
    (h : (Sim.runSteps cfg ctrl phiD phiN rs k s0).crashed = true) :
    ∀ m, (Sim.runSteps cfg ctrl phiD phiN rs (k + m) s0).crashed = true := by
  intro m
  induction m with
  | zero => exact h
  | succ m ih =>
      show (Sim.stepCrashed cfg (Sim.runSteps cfg ctrl phiD phiN rs (k + m) s0)) = true
      exact Sim.stepCrashed_stays cfg _ ih

/-- After a crash the true pose never moves again. -/
theorem Sim.runSteps_X_const {σ : Type} (cfg : Sim.Config)
    (ctrl : σ → Vec3 → Vec3 → σ × ℝ × ℝ) (phiD phiN : ℝ) (rs : ℕ → ℝ)
    (s0 : Sim.SimState σ) (k : ℕ)
    (h : (Sim.runSteps cfg ctrl phiD phiN rs k s0).crashed = true) :
    ∀ m, (Sim.runSteps cfg ctrl phiD phiN rs (k + m) s0).X
      = (Sim.runSteps cfg ctrl phiD phiN rs k s0).X := by
  intro m
  induction m with
  | zero => rfl
  | succ m ih =>
      have hc := Sim.runSteps_crashed_mono cfg ctrl phiD phiN rs s0 k h m
      calc (Sim.runSteps cfg ctrl phiD phiN rs (k + (m + 1)) s0).X
          = (Sim.runSteps cfg ctrl phiD phiN rs (k + m) s0).X :=
            Sim.simStep_crashed_X cfg ctrl phiD phiN (rs (k + m))
              (((k + m : ℕ) : ℝ) * cfg.dt) _ hc
        _ = (Sim.runSteps cfg ctrl phiD phiN rs k s0).X := ih

/-- Every loop iteration appends exactly one sample: there is no early exit. -/
theorem Sim.runSteps_samples_length {σ : Type} (cfg : Sim.Config)
    (ctrl : σ → Vec3 → Vec3 → σ × ℝ × ℝ) (phiD phiN : ℝ) (rs : ℕ → ℝ) (n : ℕ)
    (s0 : Sim.SimState σ) :
    (Sim.runSteps cfg ctrl phiD phiN rs n s0).samples.length = s0.samples.length + n := by
  induction n with
  | zero => rfl
  | succ n ih =>
      show ((Sim.runSteps cfg ctrl phiD phiN rs n s0).samples
        ++ [Sim.stepSample cfg ctrl phiD phiN (rs n) ((n : ℝ) * cfg.dt)
          (Sim.runSteps cfg ctrl phiD phiN rs n s0)]).length = s0.samples.length + (n + 1)
      rw [List.length_append, ih, List.length_singleton]
      omega

/-- With the noise flag zero the noise term of line 239 vanishes. -/
theorem Sim.noiseTerm_zero {cfg : Sim.Config} (h : cfg.enable_noise = 0)
    (t phiN v : ℝ) : Sim.noiseTerm cfg t phiN v = 0 := by
  simp [Sim.noiseTerm, h]

/-- With the disturbance flag zero the disturbance of line 265 vanishes. -/
theorem Sim.disturbance_zero {cfg : Sim.Config} (h : cfg.enable_disturbance = 0)
    (t phiD r v : ℝ) : Sim.disturbance cfg t phiD r v = 0 := by
  simp [Sim.disturbance, h]

/-- With both enable flags zero, one step of the loop does not depend on the
phase offsets or on the step's standard-normal draw. -/
theorem Sim.simStep_no_random {σ : Type} (cfg : Sim.Config)
    (hn : cfg.enable_noise = 0) (hd : cfg.enable_disturbance = 0)
    (ctrl : σ → Vec3 → Vec3 → σ × ℝ × ℝ) (phiD phiN phiD2 phiN2 r r2 t : ℝ)
    (s : Sim.SimState σ) :
    Sim.simStep cfg ctrl phiD phiN r t s = Sim.simStep cfg ctrl phiD2 phiN2 r2 t s := by
  simp only [Sim.simStep, Sim.stepTwist, Sim.stepDisturb, Sim.stepSample,
    Sim.stepVelocity, Sim.stepThrottle, Sim.stepSteering, Sim.stepCtrlOut,
    Sim.stepErrorN, Sim.noiseTerm_zero hn, Sim.disturbance_zero hd]

/-- The throttle clamp of lines 248-251 lands in the unit interval. -/
theorem Sim.clampThrottle_mem (x : ℝ) :
    0 ≤ Sim.clampThrottle x ∧ Sim.clampThrottle x ≤ 1 := by
  unfold Sim.clampThrottle
  split_ifs with h1 h2
  · norm_num
  · norm_num
  · push_neg at h1 h2
    exact ⟨h1, h2⟩

/-- The velocity override of lines 256-262 keeps a unit-interval throttle in
the unit interval whenever the off-track penalty fraction lies in `[0, 1]`. -/
theorem Sim.appliedVelocity_mem (cfg : Sim.Config)
    (hp0 : 0 ≤ cfg.off_track_velocity_penalty)
    (hp1 : cfg.off_track_velocity_penalty ≤ 1) (crashed off : Bool) {thr : ℝ}
    (h0 : 0 ≤ thr) (h1 : thr ≤ 1) :
    0 ≤ Sim.appliedVelocity cfg crashed off thr ∧
      Sim.appliedVelocity cfg crashed off thr ≤ 1 := by
  unfold Sim.appliedVelocity
  split_ifs
  · norm_num
  · constructor
    · nlinarith
    · nlinarith
  · exact ⟨h0, h1⟩

/-! ### Claims about the simulation loop -/

/-- Claim C2 counterexample: the disturbance of line 265 is not a function of
the run-start phase, the step time, and the velocity alone — at the same step
state (time 0, phase 0, velocity 1) two different values of the per-step
standard-normal draw made inside the sinusoid give different disturbances. -/
theorem claim_C2_counterexample :
    Sim.disturbance Sim.defaultConfig 0 0 0 1
      ≠ Sim.disturbance Sim.defaultConfig 0 0 (π / 2) 1 := by
  unfold Sim.disturbance
  norm_num [Sim.defaultConfig, Real.sin_pi_div_two]

/-- Claim C2 as amended: besides the phase offsets drawn at run start, the
only randomness entering a run is the one standard-normal draw consumed per
step inside the disturbance sinusoid: two executions with the same phases
whose draw streams agree on the steps taken produce identical loop states,
and in particular identical disturbance values. -/
theorem claim_C2_amended {σ : Type} (cfg : Sim.Config)
    (ctrl : σ → Vec3 → Vec3 → σ × ℝ × ℝ) (phiD phiN : ℝ) (rs rs2 : ℕ → ℝ)
    (s0 : Sim.SimState σ) (n : ℕ) (h : ∀ k, k < n → rs k = rs2 k) :
    Sim.runSteps cfg ctrl phiD phiN rs n s0 = Sim.runSteps cfg ctrl phiD phiN rs2 n s0 := by
  induction n with
  | zero => rfl
  | succ n ih =>
      show Sim.simStep cfg ctrl phiD phiN (rs n) ((n : ℝ) * cfg.dt)
          (Sim.runSteps cfg ctrl phiD phiN rs n s0)
        = Sim.simStep cfg ctrl phiD phiN (rs2 n) ((n : ℝ) * cfg.dt)
          (Sim.runSteps cfg ctrl phiD phiN rs2 n s0)
      rw [h n (Nat.lt_succ_self n), ih (fun k hk => h k (Nat.lt_succ_of_lt hk))]

/-- Claim C2 amended, witness: two draw streams that agree on the two steps
taken produce the same state. -/
theorem claim_C2_amended_witness :
    Sim.runSteps Sim.defaultConfig (fun (u : Unit) _ _ => (u, 0, 0)) 0 0 (fun _ => 0) 2
        (Sim.initState Sim.defaultConfig ())
      = Sim.runSteps Sim.defaultConfig (fun (u : Unit) _ _ => (u, 0, 0)) 0 0
        (fun k => (k : ℝ) * 0) 2 (Sim.initState Sim.defaultConfig ()) :=
  claim_C2_amended Sim.defaultConfig (fun (u : Unit) _ _ => (u, 0, 0)) 0 0
    (fun _ => 0) (fun k => (k : ℝ) * 0) (Sim.initState Sim.defaultConfig ()) 2
    (fun k _ => by simp)

/-- Claim C3, behavior of the code at the failing input: under IEEE comparison
semantics (every ordered comparison against NaN is false) a NaN controller
return passes the actuator clamp of lines 248-255 unchanged, and `Sim.run`
performs no finiteness check, so nothing rejects the malformed value and it
is assigned to the applied velocity. -/
theorem claim_C3_nan_passthrough :
    FloatClamp.clampThrottleF none = none ∧ FloatClamp.clampSteeringF none = none :=
  ⟨rfl, rfl⟩

/-- Claim C4: at every step the traveled distance advances by
`desired_speed * dt` exactly when the pre-noise along-track error `error[2]`
is strictly positive; otherwise the distance is unchanged, the gated reference
rate twist is the zero vector, and the reference pose stays at the step's
(re-canonicalized) reference pose. -/
theorem claim_C4 {σ : Type} (cfg : Sim.Config) (hsd : 0 < cfg.desired_speed * cfg.dt)
    (ctrl : σ → Vec3 → Vec3 → σ × ℝ × ℝ) (phiD phiN r t : ℝ) (s : Sim.SimState σ) :
    ((Sim.simStep cfg ctrl phiD phiN r t s).distance
        = s.distance + cfg.desired_speed * cfg.dt ↔ (Sim.stepError cfg s).x2 > 0) ∧
    (¬ (Sim.stepError cfg s).x2 > 0 →
      (Sim.simStep cfg ctrl phiD phiN r t s).distance = s.distance ∧
      Sim.gatedRate cfg s.distance (Sim.stepError cfg s).x2 = ⟨0, 0, 0⟩ ∧
      (Sim.simStep cfg ctrl phiD phiN r t s).Xr
        = SE2.from_params (SE2.to_params s.Xr)) := by
  have hdist : (Sim.simStep cfg ctrl phiD phiN r t s).distance
      = Sim.newDistance cfg s.distance (Sim.stepError cfg s).x2 := rfl
  constructor
  · rw [hdist]
    unfold Sim.newDistance
    by_cases h : (Sim.stepError cfg s).x2 > 0
    · rw [if_pos h]
      exact ⟨fun _ => h, fun _ => rfl⟩
    · rw [if_neg h]
      exact ⟨fun he => absurd he (by intro he2; linarith), fun hcon => absurd hcon h⟩
  · intro h
    have hgate : Sim.gatedRate cfg s.distance (Sim.stepError cfg s).x2 = ⟨0, 0, 0⟩ := by
      unfold Sim.gatedRate
      rw [if_neg h]
    refine ⟨?_, hgate, ?_⟩
    · rw [hdist]
      unfold Sim.newDistance
      rw [if_neg h]
    · show mul3 (SE2.from_params (SE2.to_params s.Xr))
        (SE2.exp (SE2.wedge (scaleV (Sim.gatedRate cfg s.distance (Sim.stepError cfg s).x2)
          cfg.dt))) = SE2.from_params (SE2.to_params s.Xr)
      rw [hgate, exp_wedge_scaleV_zero, mul3_one_right]

/-- Claim C4 witness: the gate equivalence at the initial state of the default
configuration, where `desired_speed * dt = 0.002 > 0`. -/
theorem claim_C4_witness :
    (Sim.simStep Sim.defaultConfig (fun (u : Unit) _ _ => (u, 0, 0)) 0 0 0 0
        (Sim.initState Sim.defaultConfig ())).distance
      = (Sim.initState Sim.defaultConfig ()).distance
        + Sim.defaultConfig.desired_speed * Sim.defaultConfig.dt
    ↔ (Sim.stepError Sim.defaultConfig
        (Sim.initState Sim.defaultConfig ())).x2 > 0 :=
  (claim_C4 Sim.defaultConfig (by norm_num [Sim.defaultConfig])
    (fun (u : Unit) _ _ => (u, 0, 0)) 0 0 0 0 (Sim.initState Sim.defaultConfig ())).1

/-- Claim C5: the crash flag is sticky — if at some step the pre-noise lateral
error magnitude exceeds `crash_distance`, the flag is true at that step and at
every later step of the run, whatever the later errors are. -/
theorem claim_C5 {σ : Type} (cfg : Sim.Config) (ctrl : σ → Vec3 → Vec3 → σ × ℝ × ℝ)
    (phiD phiN : ℝ) (rs : ℕ → ℝ) (s0 : Sim.SimState σ) (k : ℕ)
    (h : cfg.crash_distance
      < |(Sim.stepError cfg (Sim.runSteps cfg ctrl phiD phiN rs k s0)).x1|) :
    ∀ m, (Sim.runSteps cfg ctrl phiD phiN rs (k + 1 + m) s0).crashed = true := by
  have h1 : (Sim.runSteps cfg ctrl phiD phiN rs (k + 1) s0).crashed = true := by
    show Sim.stepCrashed cfg (Sim.runSteps cfg ctrl phiD phiN rs k s0) = true
    unfold Sim.stepCrashed
    simp [h]
  exact Sim.runSteps_crashed_mono cfg ctrl phiD phiN rs s0 (k + 1) h1

/-- Claim C6: a crash never ends the run early — every loop iteration records
exactly one sample and the run returns the traveled distance of the final
state; and from the first post-crash step on, the applied velocity is zero,
the velocity-scaled disturbance is zero, the integrated body twist is the zero
vector, and the true pose never changes again. -/
theorem claim_C6 {σ : Type} (cfg : Sim.Config) (ctrl : σ → Vec3 → Vec3 → σ × ℝ × ℝ)
    (phiD phiN : ℝ) (rs : ℕ → ℝ) :
    (∀ (n : ℕ) (s0 : Sim.SimState σ),
      (Sim.runSteps cfg ctrl phiD phiN rs n s0).samples.length
        = s0.samples.length + n) ∧
    (∀ (r1 r2 : ℝ) (cs0 : σ),
      Sim.simRun cfg ctrl r1 r2 rs cs0
        = (Sim.runSteps cfg ctrl (0.1 * π * r1) (0.1 * π * r2) rs (Sim.numSteps cfg)
            (Sim.initState cfg cs0)).distance) ∧
    (∀ (r t : ℝ) (s : Sim.SimState σ), s.crashed = true →
      (Sim.simStep cfg ctrl phiD phiN r t s).velocity = 0 ∧
      Sim.stepDisturb cfg ctrl phiD phiN r t s = 0 ∧
      Sim.stepTwist cfg ctrl phiD phiN r t s = ⟨0, 0, 0⟩ ∧
      (Sim.simStep cfg ctrl phiD phiN r t s).X = s.X) ∧
    (∀ (k m : ℕ) (s0 : Sim.SimState σ),
      (Sim.runSteps cfg ctrl phiD phiN rs k s0).crashed = true →
      (Sim.runSteps cfg ctrl phiD phiN rs (k + m) s0).X
        = (Sim.runSteps cfg ctrl phiD phiN rs k s0).X) := by
  refine ⟨Sim.runSteps_samples_length cfg ctrl phiD phiN rs,
    fun r1 r2 cs0 => rfl, fun r t s h => ?_,
    fun k m s0 h => Sim.runSteps_X_const cfg ctrl phiD phiN rs s0 k h m⟩
  exact ⟨Sim.stepVelocity_crashed cfg ctrl phiN t s h,
    Sim.stepDisturb_crashed cfg ctrl phiD phiN r t s h,
    Sim.stepTwist_crashed cfg ctrl phiD phiN r t s h,
    Sim.simStep_crashed_X cfg ctrl phiD phiN r t s h⟩

/-- Claim C6 witness: three steps of the default run record three samples, and
one step from a concrete crashed state applies zero velocity. -/
theorem claim_C6_witness :
    (Sim.runSteps Sim.defaultConfig (fun (u : Unit) _ _ => (u, 0, 0)) 0 0 (fun _ => 0) 3
        (Sim.initState Sim.defaultConfig ())).samples.length
      = (Sim.initState Sim.defaultConfig ()).samples.length + 3 ∧
    (Sim.simStep Sim.defaultConfig (fun (u : Unit) _ _ => (u, 0, 0)) 0 0 0 0
        ⟨SE2.from_params ⟨0, 0, 0⟩, SE2.from_params ⟨0, 0, 0⟩, 0, 0, true, (), []⟩).velocity
      = 0 :=
  ⟨(claim_C6 Sim.defaultConfig (fun (u : Unit) _ _ => (u, 0, 0)) 0 0 (fun _ => 0)).1 3
      (Sim.initState Sim.defaultConfig ()),
   ((claim_C6 Sim.defaultConfig (fun (u : Unit) _ _ => (u, 0, 0)) 0 0 (fun _ => 0)).2.2.1 0 0
      ⟨SE2.from_params ⟨0, 0, 0⟩, SE2.from_params ⟨0, 0, 0⟩, 0, 0, true, (), []⟩ rfl).1⟩

/-- Claim C7: with both enable flags zero and any (deterministic) controller,
the recorded sample series does not depend on the random source at all — the
phase offsets and the per-step draws are multiplied away, so two runs of the
same configuration produce identical sample series. -/
theorem claim_C7 {σ : Type} (cfg : Sim.Config) (hn : cfg.enable_noise = 0)
    (hd : cfg.enable_disturbance = 0) (ctrl : σ → Vec3 → Vec3 → σ × ℝ × ℝ)
    (phiD phiN phiD2 phiN2 : ℝ) (rs rs2 : ℕ → ℝ) (s0 : Sim.SimState σ) (n : ℕ) :
    (Sim.runSteps cfg ctrl phiD phiN rs n s0).samples
      = (Sim.runSteps cfg ctrl phiD2 phiN2 rs2 n s0).samples := by
  have key : ∀ m, Sim.runSteps cfg ctrl phiD phiN rs m s0
      = Sim.runSteps cfg ctrl phiD2 phiN2 rs2 m s0 := by
    intro m
    induction m with
    | zero => rfl
    | succ m ih =>
        show Sim.simStep cfg ctrl phiD phiN (rs m) ((m : ℝ) * cfg.dt)
            (Sim.runSteps cfg ctrl phiD phiN rs m s0)
          = Sim.simStep cfg ctrl phiD2 phiN2 (rs2 m) ((m : ℝ) * cfg.dt)
            (Sim.runSteps cfg ctrl phiD2 phiN2 rs2 m s0)
        rw [ih]
        exact Sim.simStep_no_random cfg hn hd ctrl phiD phiN phiD2 phiN2 (rs m) (rs2 m)
          ((m : ℝ) * cfg.dt) _
  rw [key n]

/-- Claim C7 witness: with the quiet configuration, two runs with entirely
different phases and draw streams record the same two samples. -/
theorem claim_C7_witness :
    (Sim.runSteps Sim.quietConfig (fun (u : Unit) _ _ => (u, 0, 0)) 1 2 (fun _ => 3) 2
        (Sim.initState Sim.quietConfig ())).samples
      = (Sim.runSteps Sim.quietConfig (fun (u : Unit) _ _ => (u, 0, 0)) 4 5 (fun _ => 6) 2
        (Sim.initState Sim.quietConfig ())).samples :=
  claim_C7 Sim.quietConfig rfl rfl (fun (u : Unit) _ _ => (u, 0, 0)) 1 2 4 5
    (fun _ => 3) (fun _ => 6) (Sim.initState Sim.quietConfig ()) 2

/-- Claim C10 (implicit): with the off-track penalty fraction in `[0, 1]`, the
applied velocity produced by any step lies in `[0, 1]` — the throttle is first
clamped to `[0, 1]`, then either kept, scaled by `1 - penalty`, or zeroed —
and the recorded sample stores exactly that velocity. -/
theorem claim_C10 {σ : Type} (cfg : Sim.Config)
    (hp0 : 0 ≤ cfg.off_track_velocity_penalty)
    (hp1 : cfg.off_track_velocity_penalty ≤ 1)
    (ctrl : σ → Vec3 → Vec3 → σ × ℝ × ℝ) (phiD phiN r t : ℝ) (s : Sim.SimState σ) :
    0 ≤ (Sim.simStep cfg ctrl phiD phiN r t s).velocity ∧
    (Sim.simStep cfg ctrl phiD phiN r t s).velocity ≤ 1 ∧
    (Sim.stepSample cfg ctrl phiD phiN r t s).velocity
      = (Sim.simStep cfg ctrl phiD phiN r t s).velocity ∧
    (Sim.simStep cfg ctrl phiD phiN r t s).samples
      = s.samples ++ [Sim.stepSample cfg ctrl phiD phiN r t s] := by
  have hc := Sim.clampThrottle_mem (Sim.stepCtrlOut cfg ctrl phiN t s).2.1
  have hmem := Sim.appliedVelocity_mem cfg hp0 hp1 (Sim.stepCrashed cfg s)
    (Sim.stepOffTrack cfg s) hc.1 hc.2
  exact ⟨hmem.1, hmem.2, rfl, rfl⟩

/-- Claim C10 witness: at the initial state of the default configuration
(penalty 0.5), with a controller commanding throttle 2, the step's applied
velocity lies in `[0, 1]`. -/
theorem claim_C10_witness :
    0 ≤ (Sim.simStep Sim.defaultConfig (fun (u : Unit) _ _ => (u, 2, 0)) 0 0 0 0
        (Sim.initState Sim.defaultConfig ())).velocity ∧
    (Sim.simStep Sim.defaultConfig (fun (u : Unit) _ _ => (u, 2, 0)) 0 0 0 0
        (Sim.initState Sim.defaultConfig ())).velocity ≤ 1 :=
  ⟨(claim_C10 Sim.defaultConfig (by norm_num [Sim.defaultConfig])
      (by norm_num [Sim.defaultConfig]) (fun (u : Unit) _ _ => (u, 2, 0)) 0 0 0 0
      (Sim.initState Sim.defaultConfig ())).1,
   (claim_C10 Sim.defaultConfig (by norm_num [Sim.defaultConfig])
      (by norm_num [Sim.defaultConfig]) (fun (u : Unit) _ _ => (u, 2, 0)) 0 0 0 0
      (Sim.initState Sim.defaultConfig ())).2.1⟩

/-- Claim C5 witness: from a state whose lateral error is 10 (far beyond the
crash distance 0.2), the crash flag is set by the next step and is still set
one step later. -/
theorem claim_C5_witness :
    (Sim.runSteps Sim.defaultConfig (fun (u : Unit) _ _ => (u, 0, 0)) 0 0 (fun _ => 0) 2
      ⟨SE2.from_params ⟨0, 10, 0⟩, SE2.from_params ⟨0, 0, 0⟩, 0, 0, false, (), []⟩).crashed
      = true := by
  have h : Sim.defaultConfig.crash_distance
      < |(Sim.stepError Sim.defaultConfig
          (Sim.runSteps Sim.defaultConfig (fun (u : Unit) _ _ => (u, 0, 0)) 0 0 (fun _ => 0) 0
            ⟨SE2.from_params ⟨0, 10, 0⟩, SE2.from_params ⟨0, 0, 0⟩, 0, 0,
              false, (), []⟩)).x1| := by
    show Sim.defaultConfig.crash_distance
      < |(Sim.stepError Sim.defaultConfig
          (⟨SE2.from_params ⟨0, 10, 0⟩, SE2.from_params ⟨0, 0, 0⟩, 0, 0,
            false, (), []⟩ : Sim.SimState Unit)).x1|
    unfold Sim.stepError
    norm_num [SE2.from_params, SE2.to_params, SE2.vee, SE2.log, SE2.coeffA, SE2.coeffB,
      SE2.logDenom, atan2, inv3, det3, mul3, Sim.defaultConfig]
  exact claim_C5 Sim.defaultConfig (fun (u : Unit) _ _ => (u, 0, 0)) 0 0 (fun _ => 0)
    ⟨SE2.from_params ⟨0, 10, 0⟩, SE2.from_params ⟨0, 0, 0⟩, 0, 0, false, (), []⟩ 0 h 1
